import Mathlib

/-!
Verification of the expense-tracker filtering/aggregation core (src/js/data.js,
src/js/exportImport.js, main.js) against its design specification.

The JavaScript code is shallowly embedded: every function below is a direct
transcription of the corresponding function in the source.  Conventions used
throughout:

* Monetary amounts are rationals (the source uses JS numbers; all the claims
  under study are exact-arithmetic statements such as division by 12).
* A JS date value is represented by its calendar components.  For calendar
  dates the lexicographic order on (year, month, day) agrees with the order
  of JS time values, so comparisons between parsed dates are represented by
  comparing "dateVal", an order-isomorphic integer.
* "new Date(string)" on the ISO "YYYY-MM-DD" strings used by the app (date
  inputs and the backend date column) is modelled by "parseDate"; any other
  string is modelled as an invalid date.  "new Date(null)" is the epoch,
  hence "jsDateOf none" is January 1st 1970.
* "Array.prototype.sort" (ES2019: required to be a stable sort) is embedded
  as a structurally recursive stable insertion sort "isort" on the boolean
  relation "cmp a b ≤ 0".  For a consistent comparator the stable sorted
  order is unique, so this is a faithful denotation; for an inconsistent
  comparator (which the date comparator of the source is, on records that
  both lack a due date) ECMAScript leaves the order implementation-defined
  and "isort" realises one compliant behaviour.
* The current real-world date ("new Date()") is passed explicitly as a
  "today" parameter.
-/

namespace ExpenseTracker

/-! ### JS primitives: strings and dates -/

/-- Lexicographic code-point comparison on character lists; the embedding of
"String.prototype.localeCompare" (whose result is only consumed through its
sign and zero test by the sort comparators). -/
def strCmpChars : List Char → List Char → Int
  | [], [] => 0
  | [], _ :: _ => -1
  | _ :: _, [] => 1
  | a :: as, b :: bs => if a < b then -1 else if b < a then 1 else strCmpChars as bs

/-- Comparison of two strings, modelling "a.localeCompare(b)". -/
def strCmp (a b : String) : Int :=
  strCmpChars a.data b.data

/-- A JS date value, by calendar components.  "m" is the calendar month
(1 to 12); the source only compares months of two dates for equality, so the
0-based "getMonth()" convention is immaterial. -/
structure JSDate where
  y : Int
  m : Nat
  d : Nat
deriving DecidableEq, Repr

/-- Order-isomorphic integer image of a calendar date; stands in for the JS
time value "getTime()" in comparisons and subtraction of valid dates. -/
def dateVal (dt : JSDate) : Int :=
  dt.y * 10000 + (dt.m : Int) * 100 + (dt.d : Int)

/-- Numeric value of a decimal digit character. -/
def digitVal (c : Char) : Option Nat :=
  if c.isDigit then some (c.toNat - 48) else none

/-- Gregorian leap-year test. -/
def isLeapYear (y : Int) : Bool :=
  decide ((y % 4 = 0 ∧ ¬ y % 100 = 0) ∨ y % 400 = 0)

/-- Number of days in a calendar month. -/
def daysInMonth (y : Int) (m : Nat) : Nat :=
  match m with
  | 2 => if isLeapYear y then 29 else 28
  | 4 => 30
  | 6 => 30
  | 9 => 30
  | 11 => 30
  | _ => 31

/-- Parsing of an ISO "YYYY-MM-DD" string, the embedding of "new Date(s)" /
"isNaN(date.getTime())" on the date-only strings the app stores; a string not
of that shape (or naming an impossible calendar day) is an invalid date. -/
def parseDate (s : String) : Option JSDate :=
  match s.data with
  | [y1, y2, y3, y4, h1, m1, m2, h2, d1, d2] =>
    match digitVal y1, digitVal y2, digitVal y3, digitVal y4,
          digitVal m1, digitVal m2, digitVal d1, digitVal d2 with
    | some a, some b, some c, some d, some e, some f, some g, some h =>
      if h1 = '-' ∧ h2 = '-' then
        let y : Int := ((a * 1000 + b * 100 + c * 10 + d : Nat) : Int)
        let m := e * 10 + f
        let dd := g * 10 + h
        if 1 ≤ m ∧ m ≤ 12 ∧ 1 ≤ dd ∧ dd ≤ daysInMonth y m then
          some { y := y, m := m, d := dd }
        else none
      else none
    | _, _, _, _, _, _, _, _ => none
  | _ => none

/-- JS truthiness of an optional string field (null and the empty string are
falsy). -/
def truthy (d : Option String) : Bool :=
  match d with
  | none => false
  | some s => decide (¬ s = "")

/-- The date value of "new Date(exp.dueDate)": a null due date gives the
epoch (a valid date), a string is parsed. -/
def jsDateOf (d : Option String) : Option JSDate :=
  match d with
  | none => some { y := 1970, m := 1, d := 1 }
  | some s => parseDate s

/-- Comparator date number for the date sort keys: "new Date(s)" as an
integer.  An unparseable string yields NaN in the source; a NaN comparator
result is treated by the sort exactly like 0, which is how it is modelled. -/
def dateNum (d : Option String) : Int :=
  match jsDateOf d with
  | some dt => dateVal dt
  | none => 0

/-! ### Data model -/

/-- The recurrence classification of an expense record.  The data-model
invariant of the spec restricts the field to these three values. -/
inductive Recurrence where
  | monthly
  | yearly
  | onetime
deriving DecidableEq, Repr

/-- The string stored in the "recurrence" field for each classification. -/
def recurrenceStr : Recurrence → String
  | Recurrence.monthly => "Monthly"
  | Recurrence.yearly => "Yearly"
  | Recurrence.onetime => "One-time"

/-- An expense record as held by the in-memory store ("expenses" in data.js).
The informational "createdAt" field plays no role in any claim and is
omitted. -/
structure Expense where
  id : Nat
  name : String
  category : String
  recurrence : Recurrence
  amount : ℚ
  dueDate : Option String
  notes : String
deriving DecidableEq, Repr

/-- The "activeFilters" state of data.js: empty string means no category or
recurrence filter; the date bounds are Date objects or null; "sortBy" is the
active sort key. -/
structure Filters where
  type : String
  recurrence : String
  sortBy : String
  dateFrom : Option JSDate
  dateTo : Option JSDate
deriving DecidableEq, Repr

/-- The initial value of "activeFilters" in data.js. -/
def initialFilters : Filters :=
  { type := "", recurrence := "", sortBy := "name-asc", dateFrom := none, dateTo := none }

/-! ### Filtering (getFilteredExpenses, data.js lines 300 to 350) -/

/-- The filter predicate applied by "getFilteredExpenses".  Transcribed
clause for clause; note that in the source the One-time date branch consists
of two conditional "return true" statements and then falls through to the
final "return true" of the whole predicate, so that branch never rejects. -/
def passesFilters (f : Filters) (today : JSDate) (e : Expense) : Bool :=
  if f.type ≠ "" ∧ e.category ≠ f.type then false
  else if f.recurrence ≠ "" ∧ recurrenceStr e.recurrence ≠ f.recurrence then false
  else
    match f.dateFrom, f.dateTo with
    | some dFrom, some dTo =>
      match jsDateOf e.dueDate with
      | none => false
      | some expDate =>
        if e.recurrence = Recurrence.onetime then
          if dateVal dFrom ≤ dateVal expDate ∧ dateVal expDate ≤ dateVal dTo then true
          else if expDate.y = today.y ∧ dFrom.y ≤ today.y ∧ today.y ≤ dTo.y then true
          else true
        else
          if dateVal expDate < dateVal dFrom ∨ dateVal dTo < dateVal expDate then false
          else true
    | _, _ => true

/-! ### Sorting (sortExpenses, data.js lines 358 to 393) -/

/-- The custom ordinal used by the ascending recurrence sort. -/
def recurrenceOrder : Recurrence → Int
  | Recurrence.monthly => 0
  | Recurrence.yearly => 1
  | Recurrence.onetime => 2

/-- The reversed ordinal used by the descending recurrence sort. -/
def reverseRecurrenceOrder : Recurrence → Int
  | Recurrence.onetime => 0
  | Recurrence.yearly => 1
  | Recurrence.monthly => 2

/-- The comparator passed to "Array.prototype.sort" by "sortExpenses", one
branch per case of the switch; an unknown sort key compares everything equal.
Results are rationals since the amount branches return differences of
amounts; the sort consumes only the sign. -/
def cmpExpense (sortBy : String) (a b : Expense) : ℚ :=
  if sortBy = "name-asc" then ((strCmp a.name b.name : Int) : ℚ)
  else if sortBy = "name-desc" then ((strCmp b.name a.name : Int) : ℚ)
  else if sortBy = "category-asc" then ((strCmp a.category b.category : Int) : ℚ)
  else if sortBy = "category-desc" then ((strCmp b.category a.category : Int) : ℚ)
  else if sortBy = "recurrence-asc" then
    ((recurrenceOrder a.recurrence - recurrenceOrder b.recurrence : Int) : ℚ)
  else if sortBy = "recurrence-desc" then
    ((reverseRecurrenceOrder a.recurrence - reverseRecurrenceOrder b.recurrence : Int) : ℚ)
  else if sortBy = "amount-asc" then a.amount - b.amount
  else if sortBy = "amount-desc" then b.amount - a.amount
  else if sortBy = "date-asc" then
    if ¬ truthy a.dueDate then 1
    else if ¬ truthy b.dueDate then -1
    else ((dateNum a.dueDate - dateNum b.dueDate : Int) : ℚ)
  else if sortBy = "date-desc" then
    if ¬ truthy a.dueDate then 1
    else if ¬ truthy b.dueDate then -1
    else ((dateNum b.dueDate - dateNum a.dueDate : Int) : ℚ)
  else 0

/-- Stable insertion step: the element is placed before the first entry it
compares less-or-equal to, after every entry it does not. -/
def insertLe {α : Type} (le : α → α → Bool) (a : α) : List α → List α
  | [] => [a]
  | b :: l => if le a b then a :: b :: l else b :: insertLe le a l

/-- Structural stable sort by repeated insertion; for a consistent comparator
this is the unique stable sorted order required of "Array.prototype.sort". -/
def isort {α : Type} (le : α → α → Bool) : List α → List α
  | [] => []
  | a :: l => insertLe le a (isort le l)

/-- Embedding of "[...exps].sort(cmp)": stable sort on the relation
"cmp a b ≤ 0". -/
def jsSort {α : Type} (cmp : α → α → ℚ) (l : List α) : List α :=
  isort (fun a b => decide (cmp a b ≤ 0)) l

/-- "sortExpenses" of data.js: copy of the list sorted by the comparator for
the given sort key. -/
def sortExpenses (exps : List Expense) (sortBy : String) : List Expense :=
  jsSort (cmpExpense sortBy) exps

/-- "getFilteredExpenses" of data.js: filter then sort by the active key. -/
def getFilteredExpenses (expenses : List Expense) (f : Filters) (today : JSDate) :
    List Expense :=
  sortExpenses (expenses.filter (passesFilters f today)) f.sortBy

/-! ### Filter-state mutation (removeFilter, data.js lines 231 to 240) -/

/-- "removeFilter" of data.js: clears the named filter, both date bounds for
kind "date", and is an if-chain with no default branch. -/
def removeFilter (filterType : String) (f : Filters) : Filters :=
  if filterType = "type" then { f with type := "" }
  else if filterType = "recurrence" then { f with recurrence := "" }
  else if filterType = "date" then { f with dateFrom := none, dateTo := none }
  else f

/-! ### Aggregates (calculateMonthlyTotal and getCategorySums) -/

/-- Per-record contribution accumulated by "calculateMonthlyTotal": the body
of its forEach callback. -/
def monthlyContrib (recurrenceFilter : String) (today : JSDate) (e : Expense) : ℚ :=
  match e.recurrence with
  | Recurrence.monthly => e.amount
  | Recurrence.yearly => e.amount / 12
  | Recurrence.onetime =>
    if recurrenceFilter = "One-time" then e.amount
    else if truthy e.dueDate then
      match jsDateOf e.dueDate with
      | some dt => if dt.m = today.m ∧ dt.y = today.y then e.amount else 0
      | none => 0
    else 0

/-- "calculateMonthlyTotal" of data.js: accumulate the contributions over the
filtered expenses, reading the active recurrence filter. -/
def calculateMonthlyTotal (expenses : List Expense) (f : Filters) (today : JSDate) : ℚ :=
  (getFilteredExpenses expenses f today).foldl
    (fun total e => total + monthlyContrib f.recurrence today e) 0

/-- Per-record contribution of "getCategorySums": Monthly and Yearly amounts
are prorated by the view period, and a One-time amount is prorated by 12 for
the monthly view unconditionally (no recurrence-filter case, unlike the two
totals). -/
def categoryContrib (period : String) (e : Expense) : ℚ :=
  match e.recurrence with
  | Recurrence.monthly => if period = "monthly" then e.amount else e.amount * 12
  | Recurrence.yearly => if period = "monthly" then e.amount / 12 else e.amount
  | Recurrence.onetime => if period = "monthly" then e.amount / 12 else e.amount

/-- Adding an amount to a category key of the accumulator object, creating
the key with value 0 first when absent (JS objects preserve key insertion
order, hence the association list). -/
def addToCategory (l : List (String × ℚ)) (c : String) (q : ℚ) : List (String × ℚ) :=
  match l with
  | [] => [(c, q)]
  | (c0, q0) :: rest => if c0 = c then (c, q0 + q) :: rest else (c0, q0) :: addToCategory rest c q

/-- One step of the forEach loop of "getCategorySums": add the contribution
to its category and to the running grand total. -/
def categoryStep (period : String) (acc : List (String × ℚ) × ℚ) (e : Expense) :
    List (String × ℚ) × ℚ :=
  (addToCategory acc.1 e.category (categoryContrib period e),
   acc.2 + categoryContrib period e)

/-- "getCategorySums" of data.js: the per-category sums object together with
the grand total, computed over the filtered expenses. -/
def getCategorySums (period : String) (expenses : List Expense) (f : Filters)
    (today : JSDate) : List (String × ℚ) × ℚ :=
  (getFilteredExpenses expenses f today).foldl (categoryStep period) ([], 0)

/-- Value stored under a category key of the sums object (0 when absent). -/
def lookupQ : List (String × ℚ) → String → ℚ
  | [], _ => 0
  | (k, v) :: rest, c => if c = k then v else lookupQ rest c

/-- Sum of the values of the per-category sums object. -/
def sumQ (l : List (String × ℚ)) : ℚ :=
  (l.map Prod.snd).sum

/-! ### Store mutations (addExpense, updateExpense, deleteExpense)

The asynchronous backend round-trip is represented by its outcome: the
"remoteError" parameter is the "error" component the Supabase client call
would resolve with (an error string, or none on success), consulted only
when a user is logged in. -/

/-- The partial-field object passed as second argument to "updateExpense".
The only caller (handleEditExpense in modals.js) destructures the id out of
the form data, so the object it passes never carries an id key; the optional
"id" field models the possibility of an id key in a JS object literal. -/
structure ExpenseUpdate where
  id : Option Nat
  name : String
  category : String
  recurrence : Recurrence
  amount : ℚ
  dueDate : Option String
  notes : String
deriving DecidableEq, Repr

/-- The object spread "{ ...expenses[index], ...updatedExpense }": every
field present on the update overrides the stored record, and the id is kept
exactly when the update carries no id key. -/
def applyUpdate (e : Expense) (u : ExpenseUpdate) : Expense :=
  { id := u.id.getD e.id
    name := u.name
    category := u.category
    recurrence := u.recurrence
    amount := u.amount
    dueDate := u.dueDate
    notes := u.notes }

/-- Replacement of the first record with the given id, the effect of
"findIndex" followed by assignment at the found index. -/
def replaceFirst (id : Nat) (u : ExpenseUpdate) : List Expense → List Expense
  | [] => []
  | e :: rest => if e.id = id then applyUpdate e u :: rest else e :: replaceFirst id u rest

/-- "updateExpense" of data.js: fails without mutating when no record has the
id; when logged in, a backend error also fails without mutating; otherwise
the record is merged in place and true is returned. -/
def updateExpense (expenses : List Expense) (loggedIn : Bool) (remoteError : Option String)
    (id : Nat) (u : ExpenseUpdate) : List Expense × Bool :=
  if expenses.any (fun e => e.id = id) then
    if loggedIn ∧ remoteError.isSome then (expenses, false)
    else (replaceFirst id u expenses, true)
  else (expenses, false)

/-- "deleteExpense" of data.js: when logged in, a backend error fails without
mutating; otherwise the list is replaced by the records with a different id,
and success is reported exactly when the length shrank. -/
def deleteExpense (expenses : List Expense) (loggedIn : Bool) (remoteError : Option String)
    (id : Nat) : List Expense × Bool :=
  if loggedIn ∧ remoteError.isSome then (expenses, false)
  else
    let filtered := expenses.filter (fun e => e.id ≠ id)
    if filtered.length < expenses.length then (filtered, true) else (filtered, false)

/-- "addExpense" of data.js: when logged in and the backend reports an error,
the function alerts and returns without pushing; otherwise the record is
pushed.  The second component is the alert raised, none on the success
paths. -/
def addExpense (expenses : List Expense) (loggedIn : Bool) (remoteError : Option String)
    (e : Expense) : List Expense × Option String :=
  if loggedIn then
    match remoteError with
    | some err => (expenses, some ("Error saving expense: " ++ err))
    | none => (expenses ++ [e], none)
  else (expenses ++ [e], none)

/-! ### Logout clearing -/

/-- The data state relevant to the clear operation: the in-memory collection
and the rows persisted in the remote backend. -/
structure Store where
  expenses : List Expense
  remoteExpenses : List Expense
deriving DecidableEq, Repr

/-- Modelled from the spec: the body of "clearAllExpenses" is not among the
source files (data.js only exports the name and main.js calls it from the
user-logged-out listener); section 4.1 of the spec defines "clear()" as
emptying the in-memory collection without touching persisted remote data. -/
def clearAllExpenses (s : Store) : Store :=
  { s with expenses := [] }

/-! ### Legacy-schema migration (migrateExpensesData in data.js and the
confirmImport path in exportImport.js)

Migration operates on pre-invariant record objects in which both the
deprecated "expenseType" field and the "recurrence" field may be absent;
these are modelled separately from the invariantised store records. -/

/-- A raw (possibly legacy) expense object; "none" models an absent field. -/
structure RawExpense where
  id : Nat
  name : String
  category : String
  recurrence : Option String
  expenseType : Option String
  amount : ℚ
  dueDate : Option String
  notes : String
deriving DecidableEq, Repr

/-- The per-record body of the map inside "migrateExpensesData": a record
without the deprecated field is returned as is; otherwise the recurrence is
recomputed from the deprecated field ("exp.recurrence || 'Monthly'" keeps a
present recurrence for the Recurring type) and the deprecated field is
removed.  This branch does not test whether a recurrence is already
present. -/
def migrateOne (e : RawExpense) : RawExpense :=
  if e.expenseType.isNone then e
  else
    { e with
      recurrence :=
        some (if e.expenseType = some "Recurring" then e.recurrence.getD "Monthly"
              else "One-time"),
      expenseType := none }

/-- "migrateExpensesData" of data.js: the map above is applied to every
record, but only when some record still has the old structure (deprecated
field present and no recurrence). -/
def migrateExpensesData (expenses : List RawExpense) : List RawExpense :=
  if expenses.any (fun e => e.expenseType.isSome ∧ e.recurrence.isNone) then
    expenses.map migrateOne
  else expenses

/-- The per-record migration inside "confirmImport" (exportImport.js): here
the guard additionally requires that no recurrence is present, so records
that already carry one are returned untouched. -/
def importMigrateOne (e : RawExpense) : RawExpense :=
  if e.expenseType.isSome ∧ e.recurrence.isNone then
    { e with
      recurrence :=
        some (if e.expenseType = some "Recurring" then e.recurrence.getD "Monthly"
              else "One-time"),
      expenseType := none }
  else e

/-- The validated data written back by "confirmImport": each imported record
is migrated, then records lacking a string recurrence (the only typing check
that can fail in this model) are dropped. -/
def confirmImportValid (importedData : List RawExpense) : List RawExpense :=
  (importedData.map importMigrateOne).filter (fun e => e.recurrence.isSome)

/-! ### Specification-side definitions

These follow the wording of the specification (not the source); they exist
only to be compared against the embedded code. -/

/-- Inclusion condition the specification states for a One-time record under
an active date range: the due date lies within the bounds inclusive, or the
due date falls in the current year while the filter range spans the current
year. -/
def claimedOneTimeDateCond (dFrom dTo dueDate today : JSDate) : Prop :=
  (dateVal dFrom ≤ dateVal dueDate ∧ dateVal dueDate ≤ dateVal dTo) ∨
  (dueDate.y = today.y ∧ dFrom.y ≤ today.y ∧ today.y ≤ dTo.y)

/-- Whether a due date falls in the current real-world month and year, as the
specification words it (an absent or unparseable due date falls in no
month). -/
def dueDateInMonth (d : Option String) (today : JSDate) : Bool :=
  match d with
  | some s =>
    match parseDate s with
    | some dt => decide (dt.m = today.m ∧ dt.y = today.y)
    | none => false
  | none => false

/-- Per-record monthly contribution exactly as the claim describes it:
Monthly gives the amount, Yearly a twelfth, One-time the full amount under an
active One-time recurrence filter and otherwise the amount only when due in
the current month and year. -/
def claimedMonthlyContrib (recurrenceFilter : String) (today : JSDate) (e : Expense) : ℚ :=
  match e.recurrence with
  | Recurrence.monthly => e.amount
  | Recurrence.yearly => e.amount / 12
  | Recurrence.onetime =>
    if recurrenceFilter = "One-time" then e.amount
    else if dueDateInMonth e.dueDate today then e.amount else 0

/-! ### Concrete sample data used by the scenario conjuncts, witnesses and
counterexamples -/

/-- A reference current date (September 15th 2025). -/
def todayRef : JSDate :=
  { y := 2025, m := 9, d := 15 }

/-- Scenario record A of the spec: Food, Monthly, 100. -/
def expA : Expense :=
  { id := 1, name := "A", category := "Food", recurrence := Recurrence.monthly,
    amount := 100, dueDate := none, notes := "" }

/-- Scenario record B of the spec: Food, Yearly, 1200. -/
def expB : Expense :=
  { id := 2, name := "B", category := "Food", recurrence := Recurrence.yearly,
    amount := 1200, dueDate := none, notes := "" }

/-- Scenario record C of the spec: Housing, One-time, 600, due this month. -/
def expC : Expense :=
  { id := 3, name := "C", category := "Housing", recurrence := Recurrence.onetime,
    amount := 600, dueDate := some "2025-09-20", notes := "" }

/-- Filter state whose active recurrence filter is One-time. -/
def oneTimeFilters : Filters :=
  { initialFilters with recurrence := "One-time" }

/-- A One-time record due June 15th 2020, outside the range below and not in
the current year. -/
def staleOneTime : Expense :=
  { id := 4, name := "Old", category := "Other", recurrence := Recurrence.onetime,
    amount := 50, dueDate := some "2020-06-15", notes := "" }

/-- Filter state with date bounds covering exactly the calendar year 2021. -/
def year2021Filters : Filters :=
  { type := "", recurrence := "", sortBy := "name-asc",
    dateFrom := some { y := 2021, m := 1, d := 1 },
    dateTo := some { y := 2021, m := 12, d := 31 } }

/-- A current date in 2026, so that neither 2020 nor 2021 is the current
year. -/
def today2026 : JSDate :=
  { y := 2026, m := 10, d := 11 }

/-- First of two records lacking a due date. -/
def pendingFirst : Expense :=
  { id := 10, name := "P1", category := "Other", recurrence := Recurrence.monthly,
    amount := 1, dueDate := none, notes := "" }

/-- Second of two records lacking a due date. -/
def pendingSecond : Expense :=
  { id := 11, name := "P2", category := "Other", recurrence := Recurrence.monthly,
    amount := 2, dueDate := none, notes := "" }

/-- A legacy record with the deprecated field and no recurrence (it triggers
the migration pass). -/
def legacyNew : RawExpense :=
  { id := 21, name := "L1", category := "Other", recurrence := none,
    expenseType := some "One-time", amount := 5, dueDate := none, notes := "" }

/-- A record carrying both the deprecated field (not Recurring) and an
existing recurrence value. -/
def legacyKept : RawExpense :=
  { id := 22, name := "L2", category := "Other", recurrence := some "Monthly",
    expenseType := some "One-time", amount := 6, dueDate := none, notes := "" }

/-- A partial update carrying no id key, as built by the edit modal. -/
def updNoId : ExpenseUpdate :=
  { id := none, name := "N", category := "Food", recurrence := Recurrence.monthly,
    amount := 7, dueDate := none, notes := "" }

/-- First of two distinct records with equal amounts. -/
def twinA : Expense :=
  { id := 30, name := "T1", category := "Other", recurrence := Recurrence.monthly,
    amount := 5, dueDate := none, notes := "" }

/-- Second of two distinct records with equal amounts. -/
def twinB : Expense :=
  { id := 31, name := "T2", category := "Other", recurrence := Recurrence.monthly,
    amount := 5, dueDate := none, notes := "" }

/-! ### Lemmas about the stable sort -/

theorem insertLe_perm {α : Type} (le : α → α → Bool) (a : α) (l : List α) :
    List.Perm (insertLe le a l) (a :: l) := by
  induction l with
  | nil => simp [insertLe]
  | cons b l ih =>
    simp only [insertLe]
    split
    · exact List.Perm.refl _
    · exact (ih.cons b).trans (List.Perm.swap a b l)

theorem isort_perm {α : Type} (le : α → α → Bool) (l : List α) :
    List.Perm (isort le l) l := by
  induction l with
  | nil => simp [isort]
  | cons a l ih => exact (insertLe_perm le a (isort le l)).trans (ih.cons a)

theorem insertLe_split {α : Type} (le : α → α → Bool) (a : α) (l : List α) :
    ∃ l1 l2, l = l1 ++ l2 ∧ insertLe le a l = l1 ++ a :: l2 ∧ ∀ x ∈ l1, le a x = false := by
  induction l with
  | nil => exact ⟨[], [], rfl, rfl, by simp⟩
  | cons b l ih =>
    by_cases h : le a b = true
    · exact ⟨[], b :: l, rfl, by simp [insertLe, h], by simp⟩
    · obtain ⟨l1, l2, h1, h2, h3⟩ := ih
      refine ⟨b :: l1, l2, by simp [h1], ?_, ?_⟩
      · simp [insertLe, h, h2]
      · intro x hx
        rcases List.mem_cons.mp hx with rfl | hx
        · exact Bool.not_eq_true _ ▸ (by simpa using h)
        · exact h3 x hx

theorem sublist_insertLe {α : Type} (le : α → α → Bool) (a : α) {s l : List α}
    (h : List.Sublist s l) : List.Sublist s (insertLe le a l) := by
  obtain ⟨l1, l2, h1, h2, -⟩ := insertLe_split le a l
  rw [h2]
  exact (h1 ▸ h).middle a

theorem pair_sublist_isort {α : Type} (le : α → α → Bool) {a b : α} {l : List α}
    (hab : le a b = true) (h : List.Sublist [a, b] l) : List.Sublist [a, b] (isort le l) := by
  induction l with
  | nil => simp at h
  | cons c l ih =>
    cases h with
    | cons _ h1 => exact sublist_insertLe le c (ih h1)
    | cons₂ _ h1 =>
      have hb : b ∈ isort le l :=
        (isort_perm le l).mem_iff.mpr (List.singleton_sublist.mp h1)
      obtain ⟨l1, l2, hsplit, hins, hfalse⟩ := insertLe_split le a (isort le l)
      show List.Sublist [a, b] (insertLe le a (isort le l))
      rw [hins]
      have hb2 : b ∈ l2 := by
        rcases List.mem_append.mp (hsplit ▸ hb) with h1m | h2m
        · exact absurd hab (by simp [hfalse b h1m])
        · exact h2m
      exact List.sublist_append_of_sublist_right
        ((List.singleton_sublist.mpr hb2).cons₂ a)

theorem pairwise_insertLe {α : Type} (le : α → α → Bool)
    (total : ∀ x y : α, le x y = true ∨ le y x = true)
    (trans : ∀ x y z : α, le x y = true → le y z = true → le x z = true)
    (a : α) {l : List α} (h : l.Pairwise (fun x y => le x y = true)) :
    (insertLe le a l).Pairwise (fun x y => le x y = true) := by
  induction l with
  | nil => simp [insertLe]
  | cons b l ih =>
    rcases List.pairwise_cons.mp h with ⟨hb, hl⟩
    simp only [insertLe]
    by_cases hab : le a b = true
    · simp only [hab, if_true]
      refine List.pairwise_cons.mpr ⟨?_, h⟩
      intro x hx
      rcases List.mem_cons.mp hx with rfl | hx
      · exact hab
      · exact trans a b x hab (hb x hx)
    · simp only [hab, if_false]
      refine List.pairwise_cons.mpr ⟨?_, ih hl⟩
      intro x hx
      have hx2 : x ∈ a :: l := (insertLe_perm le a l).mem_iff.mp hx
      rcases List.mem_cons.mp hx2 with rfl | hx2
      · rcases total x b with h1 | h1
        · exact absurd h1 hab
        · exact h1
      · exact hb x hx2

theorem pairwise_isort {α : Type} (le : α → α → Bool)
    (total : ∀ x y : α, le x y = true ∨ le y x = true)
    (trans : ∀ x y z : α, le x y = true → le y z = true → le x z = true)
    (l : List α) : (isort le l).Pairwise (fun x y => le x y = true) := by
  induction l with
  | nil => simp [isort]
  | cons a l ih => exact pairwise_insertLe le total trans a ih

/-! ### Lemmas about the aggregation folds -/

theorem foldl_add_eq_sum {α : Type} (g : α → ℚ) (l : List α) :
    ∀ c : ℚ, l.foldl (fun t e => t + g e) c = c + (l.map g).sum := by
  induction l with
  | nil => simp
  | cons e l ih =>
    intro c
    simp only [List.foldl_cons, List.map_cons, List.sum_cons]
    rw [ih, add_assoc]

theorem sum_map_isort {α : Type} (le : α → α → Bool) (g : α → ℚ) (l : List α) :
    ((isort le l).map g).sum = (l.map g).sum :=
  ((isort_perm le l).map g).sum_eq

theorem lookupQ_addToCategory (l : List (String × ℚ)) (c c2 : String) (q : ℚ) :
    lookupQ (addToCategory l c q) c2 = lookupQ l c2 + (if c2 = c then q else 0) := by
  induction l with
  | nil =>
    by_cases h : c2 = c <;> simp [addToCategory, lookupQ, h]
  | cons p rest ih =>
    obtain ⟨c0, q0⟩ := p
    simp only [addToCategory]
    by_cases h0 : c0 = c
    · subst h0
      by_cases h2 : c2 = c0 <;> simp [lookupQ, h2]
    · simp only [h0, if_false]
      by_cases h2 : c2 = c0
      · subst h2
        have : ¬ c2 = c := fun h => h0 (h ▸ rfl)
        simp [lookupQ, this]
      · simp [lookupQ, h2, ih]

theorem sumQ_addToCategory (l : List (String × ℚ)) (c : String) (q : ℚ) :
    sumQ (addToCategory l c q) = sumQ l + q := by
  induction l with
  | nil => simp [addToCategory, sumQ]
  | cons p rest ih =>
    obtain ⟨c0, q0⟩ := p
    simp only [addToCategory]
    by_cases h0 : c0 = c
    · subst h0
      simp [sumQ]
      ring
    · simp only [h0, if_false]
      simp only [sumQ, List.map_cons, List.sum_cons] at ih ⊢
      rw [ih]
      ring

theorem categoryFold_snd (period : String) (l : List Expense) :
    ∀ acc : List (String × ℚ) × ℚ,
      (l.foldl (categoryStep period) acc).2 = acc.2 + (l.map (categoryContrib period)).sum := by
  induction l with
  | nil => simp
  | cons e l ih =>
    intro acc
    simp only [List.foldl_cons, List.map_cons, List.sum_cons]
    rw [ih]
    simp only [categoryStep]
    ring

theorem categoryFold_sumQ (period : String) (l : List Expense) :
    ∀ acc : List (String × ℚ) × ℚ,
      sumQ (l.foldl (categoryStep period) acc).1
        = sumQ acc.1 + (l.map (categoryContrib period)).sum := by
  induction l with
  | nil => simp
  | cons e l ih =>
    intro acc
    simp only [List.foldl_cons, List.map_cons, List.sum_cons]
    rw [ih]
    simp only [categoryStep, sumQ_addToCategory]
    ring

theorem categoryFold_lookupQ (period : String) (c : String) (l : List Expense) :
    ∀ acc : List (String × ℚ) × ℚ,
      lookupQ (l.foldl (categoryStep period) acc).1 c
        = lookupQ acc.1 c
          + ((l.filter (fun e => e.category = c)).map (categoryContrib period)).sum := by
  induction l with
  | nil => simp
  | cons e l ih =>
    intro acc
    simp only [List.foldl_cons]
    rw [ih]
    simp only [categoryStep, lookupQ_addToCategory]
    by_cases hc : e.category = c
    · subst hc
      simp [List.filter_cons]
      ring
    · have hc2 : ¬ c = e.category := fun h => hc h.symm
      simp [List.filter_cons, hc, hc2]

theorem calculateMonthlyTotal_eq_sum (expenses : List Expense) (f : Filters)
    (today : JSDate) :
    calculateMonthlyTotal expenses f today
      = ((expenses.filter (passesFilters f today)).map
          (monthlyContrib f.recurrence today)).sum := by
  unfold calculateMonthlyTotal getFilteredExpenses sortExpenses jsSort
  rw [foldl_add_eq_sum, sum_map_isort, zero_add]

theorem monthlyContrib_eq_claimed (rf : String) (today : JSDate) (e : Expense) :
    monthlyContrib rf today e = claimedMonthlyContrib rf today e := by
  obtain ⟨i, n, c, r, a, dd, ns⟩ := e
  cases r with
  | monthly => rfl
  | yearly => rfl
  | onetime =>
    simp only [monthlyContrib, claimedMonthlyContrib]
    by_cases hrf : rf = "One-time"
    · simp [hrf]
    · simp only [hrf, if_false]
      cases dd with
      | none => simp [truthy, dueDateInMonth]
      | some s =>
        by_cases hs : s = ""
        · subst hs
          have hp0 : parseDate "" = none := by decide
          simp [truthy, dueDateInMonth, hp0]
        · have ht : truthy (some s) = true := by simp [truthy, hs]
          have key : ∀ o : Option JSDate,
              (match o with
               | some dt => if dt.m = today.m ∧ dt.y = today.y then a else 0
               | none => (0 : ℚ))
              = if (match o with
                    | some dt => decide (dt.m = today.m ∧ dt.y = today.y)
                    | none => false) = true then a else 0 := by
            intro o
            cases o with
            | none => simp
            | some dt => by_cases h : dt.m = today.m ∧ dt.y = today.y <;> simp [h]
          simp only [ht, dueDateInMonth, jsDateOf, if_true]
          exact key (parseDate s)

theorem getCategorySums_totalSum (period : String) (expenses : List Expense)
    (f : Filters) (today : JSDate) :
    (getCategorySums period expenses f today).2
      = ((expenses.filter (passesFilters f today)).map (categoryContrib period)).sum := by
  unfold getCategorySums getFilteredExpenses sortExpenses jsSort
  rw [categoryFold_snd, sum_map_isort]
  simp

theorem getCategorySums_grand (period : String) (expenses : List Expense)
    (f : Filters) (today : JSDate) :
    (getCategorySums period expenses f today).2
      = sumQ (getCategorySums period expenses f today).1 := by
  unfold getCategorySums getFilteredExpenses sortExpenses jsSort
  rw [categoryFold_snd, categoryFold_sumQ]
  simp [sumQ]

theorem getCategorySums_lookup (period : String) (expenses : List Expense)
    (f : Filters) (today : JSDate) (c : String) :
    lookupQ (getCategorySums period expenses f today).1 c
      = (((expenses.filter (passesFilters f today)).filter
           (fun e => e.category = c)).map (categoryContrib period)).sum := by
  unfold getCategorySums getFilteredExpenses sortExpenses jsSort
  rw [categoryFold_lookupQ]
  simp only [lookupQ, zero_add]
  exact (((isort_perm _ _).filter _).map _).sum_eq

/-! ## Claim theorems -/

/-- C1 (the code diverges from this claim): the spec requires a One-time
record with a parseable due date to pass the date clause only when its due
date lies in the range or the year fallback applies; in the source the
One-time branch falls through to the final return true, so the record below,
which satisfies neither disjunct (due June 15th 2020, range covering 2021,
current year 2026), is nevertheless included by the filtered query. -/
theorem c1_onetime_date_fallthrough :
    parseDate ("2020-06-15") = some { y := 2020, m := 6, d := 15 }
  ∧ ¬ claimedOneTimeDateCond { y := 2021, m := 1, d := 1 } { y := 2021, m := 12, d := 31 }
        { y := 2020, m := 6, d := 15 } today2026
  ∧ staleOneTime.recurrence = Recurrence.onetime
  ∧ staleOneTime.dueDate = some ("2020-06-15")
  ∧ year2021Filters.dateFrom = some { y := 2021, m := 1, d := 1 }
  ∧ year2021Filters.dateTo = some { y := 2021, m := 12, d := 31 }
  ∧ getFilteredExpenses [staleOneTime] year2021Filters today2026 = [staleOneTime] := by
  refine ⟨by decide, ?_, rfl, rfl, rfl, rfl, by decide⟩
  unfold claimedOneTimeDateCond
  decide

/-- C2: calculateMonthlyTotal is the sum, over the filtered records, of the
claimed contributions (Monthly the amount, Yearly a twelfth, One-time the
full amount under an active One-time recurrence filter and otherwise the
amount exactly when due in the current month and year); on the three spec
scenario records with no filters the monthly total is 800. -/
theorem c2_monthly_total :
    (∀ (expenses : List Expense) (f : Filters) (today : JSDate),
       calculateMonthlyTotal expenses f today
         = ((expenses.filter (passesFilters f today)).map
             (claimedMonthlyContrib f.recurrence today)).sum)
  ∧ calculateMonthlyTotal [expA, expB, expC] initialFilters todayRef = 800 := by
  constructor
  · intro expenses f today
    rw [calculateMonthlyTotal_eq_sum]
    have h : monthlyContrib f.recurrence today = claimedMonthlyContrib f.recurrence today :=
      funext (monthlyContrib_eq_claimed f.recurrence today)
    rw [h]
  · have hfil : [expA, expB, expC].filter (passesFilters initialFilters todayRef)
        = [expA, expB, expC] := by decide
    rw [calculateMonthlyTotal_eq_sum, hfil]
    have hc : monthlyContrib initialFilters.recurrence todayRef expC = 600 := by
      have hp : jsDateOf (some ("2025-09-20")) = some { y := 2025, m := 9, d := 20 } := by
        decide
      have ht : truthy (some ("2025-09-20")) = true := by decide
      simp [monthlyContrib, expC, initialFilters, ht, hp, todayRef]
    simp [hc]
    norm_num [monthlyContrib, expA, expB]

/-- C3: in the category breakdown every filtered record contributes through
categoryContrib, which reads only the view period and the record (Monthly
amount or amount times 12, Yearly and One-time amount divided by 12 or full
amount) and in particular never the active recurrence filter; the returned
grand total equals the sum of the per-category sums, each category key sums
the contributions of the filtered records of that category, and concretely
the One-time record of amount 600 contributes 50 to Housing in the monthly
view both with and without an active One-time recurrence filter. -/
theorem c3_category_breakdown :
    (∀ (period : String) (expenses : List Expense) (f : Filters) (today : JSDate),
       (getCategorySums period expenses f today).2
         = ((expenses.filter (passesFilters f today)).map (categoryContrib period)).sum)
  ∧ (∀ (period : String) (expenses : List Expense) (f : Filters) (today : JSDate),
       (getCategorySums period expenses f today).2
         = sumQ (getCategorySums period expenses f today).1)
  ∧ (∀ (period : String) (expenses : List Expense) (f : Filters) (today : JSDate)
       (c : String),
       lookupQ (getCategorySums period expenses f today).1 c
         = (((expenses.filter (passesFilters f today)).filter
              (fun e => e.category = c)).map (categoryContrib period)).sum)
  ∧ lookupQ (getCategorySums ("monthly") [expC] initialFilters todayRef).1 ("Housing") = 50
  ∧ lookupQ (getCategorySums ("monthly") [expC] oneTimeFilters todayRef).1 ("Housing") = 50 := by
  refine ⟨getCategorySums_totalSum, getCategorySums_grand, getCategorySums_lookup, ?_, ?_⟩
  · rw [getCategorySums_lookup]
    have h1 : ([expC].filter (passesFilters initialFilters todayRef)).filter
        (fun e => e.category = "Housing") = [expC] := by decide
    rw [h1]
    norm_num [categoryContrib, expC]
  · rw [getCategorySums_lookup]
    have h2 : ([expC].filter (passesFilters oneTimeFilters todayRef)).filter
        (fun e => e.category = "Housing") = [expC] := by decide
    rw [h2]
    norm_num [categoryContrib, expC]

/-- C5: clearAllExpenses (invoked by the logout listener) empties the
in-memory expense collection and leaves the remotely persisted rows
untouched. -/
theorem c5_clear_empties_memory (s : Store) :
    (clearAllExpenses s).expenses = []
  ∧ (clearAllExpenses s).remoteExpenses = s.remoteExpenses :=
  ⟨rfl, rfl⟩

/-- C10: removeFilter with any kind other than type, recurrence or date
returns the filter state unchanged in every component. -/
theorem c10_removeFilter_unknown_noop (k : String) (f : Filters)
    (h1 : k ≠ "type") (h2 : k ≠ "recurrence") (h3 : k ≠ "date") :
    removeFilter k f = f := by
  simp [removeFilter, h1, h2, h3]

/-- Witness for C10 at the concrete unrecognized kind "amount". -/
theorem c10_removeFilter_unknown_noop_witness :
    removeFilter ("amount") initialFilters = initialFilters :=
  c10_removeFilter_unknown_noop ("amount") initialFilters (by decide) (by decide) (by decide)

/-- C4 counterexample: under the date-ascending key, two distinct records
that both lack a due date are swapped by sortExpenses (their comparator
value is 1 in either orientation, not an equal-keys comparison, and
ECMAScript leaves the order of such a pair implementation-defined), so the
claim that they retain their input order fails. -/
theorem c4_counterexample :
    sortExpenses [pendingFirst, pendingSecond] ("date-asc") = [pendingSecond, pendingFirst]
  ∧ pendingFirst ≠ pendingSecond
  ∧ pendingFirst.dueDate = none
  ∧ pendingSecond.dueDate = none := by
  refine ⟨by decide, by decide, rfl, rfl⟩

/-- C4 amended: sortExpenses is stable for every sort key in the sense that
any two records on which the active comparator evaluates to 0 appear in the
output in their input order (under the date orderings, two records both
lacking a due date compare as 1 in either orientation rather than 0 and may
be reordered). -/
theorem c4_sort_stable_on_equal_keys (sortBy : String) (l : List Expense)
    (a b : Expense) (hcmp : cmpExpense sortBy a b = 0)
    (h : List.Sublist [a, b] l) :
    List.Sublist [a, b] (sortExpenses l sortBy) := by
  apply pair_sublist_isort
  · simp [hcmp]
  · exact h

/-- Witness for the amended C4 on two equal-amount records under the
amount-ascending key. -/
theorem c4_sort_stable_witness :
    List.Sublist [twinA, twinB] (sortExpenses [twinA, twinB] ("amount-asc")) := by
  apply c4_sort_stable_on_equal_keys ("amount-asc") [twinA, twinB] twinA twinB
  · have h : cmpExpense ("amount-asc") twinA twinB = twinA.amount - twinB.amount := rfl
    rw [h]
    norm_num [twinA, twinB]
  · exact List.Sublist.refl _

/-- C6: a failed mutation leaves the in-memory list untouched and does not
report success: addExpense under a backend error alerts and keeps the list,
and updateExpense and deleteExpense return false with the list unchanged
both under a backend error and when no stored record has the given id. -/
theorem c6_failed_mutations_leave_store (expenses : List Expense) (loggedIn : Bool)
    (remoteError : Option String) (id : Nat) (u : ExpenseUpdate) (e : Expense)
    (err : String) :
    (loggedIn = true → remoteError = some err →
       addExpense expenses loggedIn remoteError e
         = (expenses, some ("Error saving expense: " ++ err)))
  ∧ ((loggedIn = true ∧ remoteError.isSome) ∨ (∀ x ∈ expenses, x.id ≠ id) →
       updateExpense expenses loggedIn remoteError id u = (expenses, false))
  ∧ ((loggedIn = true ∧ remoteError.isSome) ∨ (∀ x ∈ expenses, x.id ≠ id) →
       deleteExpense expenses loggedIn remoteError id = (expenses, false)) := by
  refine ⟨?_, ?_, ?_⟩
  · intro hl he
    simp [addExpense, hl, he]
  · intro h
    rcases h with ⟨hl, he⟩ | hnone
    · simp only [updateExpense]
      split
      · simp [hl, he]
      · rfl
    · have hany : expenses.any (fun x => x.id = id) = false := by
        rw [List.any_eq_false]
        intro x hx
        simpa using hnone x hx
      simp [updateExpense, hany]
  · intro h
    rcases h with ⟨hl, he⟩ | hnone
    · simp [deleteExpense, hl, he]
    · have hfilter : expenses.filter (fun x => !decide (x.id = id)) = expenses := by
        rw [List.filter_eq_self]
        intro x hx
        simpa using hnone x hx
      by_cases hc : loggedIn = true ∧ remoteError.isSome = true
      · simp [deleteExpense, hc]
      · simp [deleteExpense, hc, hfilter]

/-- Witness for C6: a not-found update and delete on an empty store, and an
add against a failing backend, each fail without mutating. -/
theorem c6_failed_mutations_witness :
    updateExpense [] false none 7 updNoId = ([], false)
  ∧ deleteExpense [] false none 7 = ([], false)
  ∧ addExpense [expA] true (some "boom") expB
      = ([expA], some ("Error saving expense: " ++ "boom")) :=
  ⟨(c6_failed_mutations_leave_store [] false none 7 updNoId expB "x").2.1
      (Or.inr (by simp)),
   (c6_failed_mutations_leave_store [] false none 7 updNoId expB "x").2.2
      (Or.inr (by simp)),
   (c6_failed_mutations_leave_store [expA] true (some "boom") 7 updNoId expB "boom").1
      rfl rfl⟩

/-- C7: sorting by the recurrence key ascending orders the output by the
fixed ordinal Monthly before Yearly before One-time, descending by the exact
reverse ordinal (which is the reverse order), and on a concrete list the
ascending result is exactly Monthly, Yearly, One-time and the descending
result the reverse, not the lexicographic string order. -/
theorem c7_recurrence_sort_order :
    (∀ exps : List Expense,
       (sortExpenses exps ("recurrence-asc")).Pairwise
         (fun a b => recurrenceOrder a.recurrence ≤ recurrenceOrder b.recurrence))
  ∧ (∀ exps : List Expense,
       (sortExpenses exps ("recurrence-desc")).Pairwise
         (fun a b => reverseRecurrenceOrder a.recurrence ≤ reverseRecurrenceOrder b.recurrence))
  ∧ (∀ r s : Recurrence,
       reverseRecurrenceOrder r ≤ reverseRecurrenceOrder s
         ↔ recurrenceOrder s ≤ recurrenceOrder r)
  ∧ (sortExpenses [expC, expB, expA] ("recurrence-asc")).map Expense.recurrence
      = [Recurrence.monthly, Recurrence.yearly, Recurrence.onetime]
  ∧ (sortExpenses [expC, expB, expA] ("recurrence-desc")).map Expense.recurrence
      = [Recurrence.onetime, Recurrence.yearly, Recurrence.monthly] := by
  have hleAsc : ∀ x y : Expense,
      (decide (cmpExpense ("recurrence-asc") x y ≤ 0) = true)
        ↔ recurrenceOrder x.recurrence ≤ recurrenceOrder y.recurrence := by
    intro x y
    rw [decide_eq_true_iff]
    show ((recurrenceOrder x.recurrence - recurrenceOrder y.recurrence : Int) : ℚ) ≤ 0 ↔ _
    rw [Int.cast_nonpos, sub_nonpos]
  have hleDesc : ∀ x y : Expense,
      (decide (cmpExpense ("recurrence-desc") x y ≤ 0) = true)
        ↔ reverseRecurrenceOrder x.recurrence ≤ reverseRecurrenceOrder y.recurrence := by
    intro x y
    rw [decide_eq_true_iff]
    show ((reverseRecurrenceOrder x.recurrence - reverseRecurrenceOrder y.recurrence : Int) : ℚ)
        ≤ 0 ↔ _
    rw [Int.cast_nonpos, sub_nonpos]
  refine ⟨?_, ?_, ?_, by decide, by decide⟩
  · intro exps
    have h := pairwise_isort (fun a b : Expense => decide (cmpExpense ("recurrence-asc") a b ≤ 0))
      (fun x y => by
        rcases Int.le_total (recurrenceOrder x.recurrence) (recurrenceOrder y.recurrence)
          with h | h
        · exact Or.inl ((hleAsc x y).mpr h)
        · exact Or.inr ((hleAsc y x).mpr h))
      (fun x y z hxy hyz =>
        (hleAsc x z).mpr (le_trans ((hleAsc x y).mp hxy) ((hleAsc y z).mp hyz)))
      exps
    exact h.imp (fun hab => (hleAsc _ _).mp hab)
  · intro exps
    have h := pairwise_isort (fun a b : Expense => decide (cmpExpense ("recurrence-desc") a b ≤ 0))
      (fun x y => by
        rcases Int.le_total (reverseRecurrenceOrder x.recurrence)
          (reverseRecurrenceOrder y.recurrence) with h | h
        · exact Or.inl ((hleDesc x y).mpr h)
        · exact Or.inr ((hleDesc y x).mpr h))
      (fun x y z hxy hyz =>
        (hleDesc x z).mpr (le_trans ((hleDesc x y).mp hxy) ((hleDesc y z).mp hyz)))
      exps
    exact h.imp (fun hab => (hleDesc _ _).mp hab)
  · intro r s
    cases r <;> cases s <;> decide

/-- C8 counterexample: when the store-level migration pass is triggered (by
the first record, which has the deprecated field and no recurrence), the
second record, which carries both a non-Recurring deprecated type and an
existing recurrence Monthly, has its recurrence overwritten to One-time, so
the claim that records already having a recurrence keep it fails. -/
theorem c8_counterexample :
    (migrateExpensesData [legacyNew, legacyKept]).map RawExpense.recurrence
      = [some ("One-time"), some ("One-time")]
  ∧ legacyKept.recurrence = some ("Monthly")
  ∧ legacyKept.expenseType = some ("One-time") := by
  refine ⟨by decide, rfl, rfl⟩

/-- C8 amended: both migration paths translate a record having the
deprecated expenseType field and no recurrence to Monthly for the Recurring
type and to One-time otherwise, removing the deprecated field; records
lacking the deprecated field are left unchanged, and the import path leaves
every record already carrying a recurrence unchanged; but in the store-level
pass, once triggered, a record carrying both fields keeps its recurrence
only when its expenseType is Recurring and otherwise has it overwritten to
One-time (with the deprecated field removed in both cases). -/
theorem c8_migration_amended (exps : List RawExpense) (e : RawExpense) (t : String) :
    (e ∈ exps → e.expenseType.isSome → e.recurrence = none →
       migrateExpensesData exps = exps.map migrateOne)
  ∧ ((∀ x ∈ exps, x.expenseType.isSome → x.recurrence.isSome) →
       migrateExpensesData exps = exps)
  ∧ (e.expenseType = none → migrateOne e = e)
  ∧ (e.expenseType = some t → e.recurrence = none →
       migrateOne e
         = { e with recurrence := some (if t = "Recurring" then "Monthly" else "One-time"),
                    expenseType := none })
  ∧ (e.expenseType = some "Recurring" →
       (migrateOne e).recurrence = some (e.recurrence.getD "Monthly")
         ∧ (migrateOne e).expenseType = none)
  ∧ (e.expenseType = some t → t ≠ "Recurring" →
       (migrateOne e).recurrence = some ("One-time") ∧ (migrateOne e).expenseType = none)
  ∧ (e.expenseType = some t → e.recurrence = none →
       importMigrateOne e
         = { e with recurrence := some (if t = "Recurring" then "Monthly" else "One-time"),
                    expenseType := none })
  ∧ (e.recurrence.isSome ∨ e.expenseType = none → importMigrateOne e = e) := by
  refine ⟨?_, ?_, ?_, ?_, ?_, ?_, ?_, ?_⟩
  · intro he hsome hnone
    have hany : exps.any (fun x => x.expenseType.isSome ∧ x.recurrence.isNone) = true :=
      List.any_eq_true.mpr ⟨e, ⟨he, by simp [hsome, hnone]⟩⟩
    unfold migrateExpensesData
    rw [hany]
    simp
  · intro hall
    have hany : exps.any (fun x => x.expenseType.isSome ∧ x.recurrence.isNone) = false := by
      rw [List.any_eq_false]
      intro x hx
      simp only [decide_eq_true_eq, not_and]
      intro hsome
      simpa [Option.isNone_iff_eq_none, Option.isSome_iff_ne_none] using hall x hx hsome
    unfold migrateExpensesData
    rw [hany]
    simp
  · intro h
    simp [migrateOne, h]
  · intro ht hnone
    by_cases hr : t = "Recurring" <;> simp [migrateOne, ht, hnone, hr]
  · intro ht
    simp [migrateOne, ht]
  · intro ht hr
    simp [migrateOne, ht, hr]
  · intro ht hnone
    by_cases hr : t = "Recurring" <;> simp [importMigrateOne, ht, hnone, hr]
  · intro h
    rcases h with h | h
    · simp [importMigrateOne, Option.isNone_iff_eq_none,
        Option.isSome_iff_ne_none.mp h]
    · simp [importMigrateOne, h]

/-- Witness for the amended C8: the two-record store triggers the pass and
maps both records, and the import path leaves the record with an existing
recurrence unchanged. -/
theorem c8_migration_amended_witness :
    migrateExpensesData [legacyNew, legacyKept] = [legacyNew, legacyKept].map migrateOne
  ∧ importMigrateOne legacyKept = legacyKept :=
  ⟨(c8_migration_amended [legacyNew, legacyKept] legacyNew "One-time").1
      (by simp) rfl rfl,
   (c8_migration_amended [legacyNew, legacyKept] legacyKept "One-time").2.2.2.2.2.2.2
      (Or.inl rfl)⟩

/-- C9: an update passed without an id key (as the edit action always does,
destructuring the id away) preserves the id of every stored record, and the
merge replaces every other field of the edited record with the update
fields. -/
theorem c9_update_preserves_id (expenses : List Expense) (loggedIn : Bool)
    (remoteError : Option String) (id : Nat) (u : ExpenseUpdate) (hu : u.id = none) :
    ((updateExpense expenses loggedIn remoteError id u).1).map Expense.id
      = expenses.map Expense.id
  ∧ ∀ e : Expense,
      (applyUpdate e u).id = e.id ∧ (applyUpdate e u).name = u.name
        ∧ (applyUpdate e u).category = u.category
        ∧ (applyUpdate e u).recurrence = u.recurrence
        ∧ (applyUpdate e u).amount = u.amount
        ∧ (applyUpdate e u).dueDate = u.dueDate
        ∧ (applyUpdate e u).notes = u.notes := by
  have key : ∀ l : List Expense, (replaceFirst id u l).map Expense.id = l.map Expense.id := by
    intro l
    induction l with
    | nil => rfl
    | cons e rest ih =>
      simp only [replaceFirst]
      split
      · simp [applyUpdate, hu]
      · simp [ih]
  constructor
  · unfold updateExpense
    split
    · split
      · rfl
      · simp [key]
    · rfl
  · intro e
    exact ⟨by simp [applyUpdate, hu], rfl, rfl, rfl, rfl, rfl, rfl⟩

/-- Witness for C9 on a concrete one-record store and the id-free update. -/
theorem c9_update_preserves_id_witness :
    ((updateExpense [expA] false none 1 updNoId).1).map Expense.id = [expA].map Expense.id :=
  (c9_update_preserves_id [expA] false none 1 updNoId rfl).1

end ExpenseTracker
